import Mathlib

/-!
Verification of the Tool Invocation & Learned-Mapping Store subsystem of the
browser-automation MCP server (source: `src/tools/enhanced.ts`, here
`src/unnamed/part_000`, and `src/resources/selectors.ts`).

The embedding below translates the TypeScript source into Lean:

* the in-memory `learnedSelectors` JavaScript `Map` becomes an
  insertion-ordered association list (`Store`);
* `Date` values are embedded as `JsDate`, carrying the rendering that
  `Date.prototype.toISOString()` (an external runtime builtin) produces for
  them, since every use of a stored timestamp in the source is
  `value.timestamp.toISOString()`;
* the asynchronous channel (`context.sendSocketMessage`) and the external
  structural-capture routine (`captureAriaSnapshot`, an external collaborator
  of this core) are oracles recorded in a `Context`: each remote interaction
  either yields a reply or fails, and a handler's thrown error is an
  `Except.error` (surfaced by the host protocol as the operation's error
  result);
* zod argument parsing (`Schema.shape.arguments.parse`) is embedded per
  schema: every field is checked and all issues are collected into a single
  error list, matching zod object parsing;
* `JSON.stringify(data, null, 2)` is embedded at the two-level object shape
  the resource builds, including its dropping of `undefined`-valued members.
-/

/-- A JavaScript primitive value as it appears in raw tool arguments and in
the objects the resource serializes.  A missing object property reads as
`undefined`, as does an explicitly-undefined one. -/
inductive JsPrim where
  | undefined
  | vnull
  | vbool (b : Bool)
  | vstr (s : String)
deriving DecidableEq, Repr

/-- A raw (untyped) JavaScript argument object: named fields with primitive
values, as delivered to a tool handler before validation. -/
abbrev RawObj := List (String × JsPrim)

/-- Property read on a raw object: a missing key reads as `undefined`. -/
def jsGet (o : RawObj) (name : String) : JsPrim :=
  match List.find? (fun p => p.1 = name) o with
  | some p => p.2
  | none => .undefined

/-- A JavaScript `Date`, embedded by the rendering its external
`toISOString()` builtin produces for it; this is the only observation the
source makes of a stored timestamp. -/
structure JsDate where
  isoString : String
deriving DecidableEq, Repr

/-- The external `Date.prototype.toISOString()` call, reading the embedded
rendering. -/
def JsDate.toISOString (d : JsDate) : String := d.isoString

/-- One record of the `learnedSelectors` map:
`{ selector: string; notes?: string; timestamp: Date }`. -/
structure StoredSelector where
  selector : String
  notes : Option String
  timestamp : JsDate
deriving DecidableEq, Repr

/-- The `learnedSelectors` JavaScript `Map`, embedded as an association list
in insertion order (a JS `Map` iterates in insertion order and holds at most
one binding per key). -/
abbrev Store := List (String × StoredSelector)

/-- `Map.prototype.set`: overwrite the binding in place when the key is
present (keeping its insertion position), append a new binding otherwise. -/
def mapSet : Store → String → StoredSelector → Store
  | [], k, v => [(k, v)]
  | (k', v') :: rest, k, v =>
      if k' = k then (k, v) :: rest else (k', v') :: mapSet rest k v

/-- `Map.prototype.get`, as an option. -/
def mapGet : Store → String → Option StoredSelector
  | [], _ => none
  | (k', v') :: rest, k => if k' = k then some v' else mapGet rest k

/-- The keys of the store, in insertion order. -/
def storeKeys (st : Store) : List String := st.map Prod.fst

/-- Number of entries of the store keyed by `k`. -/
def countKey (st : Store) (k : String) : Nat :=
  (st.filter (fun p => p.1 = k)).length

/-- The representation invariant of a JS `Map`: at most one binding per
key. -/
def nodupKeys (st : Store) : Prop := (storeKeys st).Nodup

/-- The view of the store a caller obtains from the exported getter: either
the live map itself (an alias of the module-level `learnedSelectors`) or a
detached copy of its entries. -/
inductive StoreView where
  | live
  | copy (entries : Store)
deriving DecidableEq, Repr

/-- `getLearnedSelectorsMap` (source lines 103-105): `return learnedSelectors;`
— it returns the module's `Map` object itself, so the view is the live map. -/
def getLearnedSelectorsMap : StoreView := .live

/-- The entries a holder of a view observes, given the store's current
contents. -/
def viewEntries (st : Store) : StoreView → Store
  | .live => st
  | .copy s => s

/-- Effect on the store's contents of a caller performing `view.set(k, r)` on
the value the getter returned: writing through the live map writes the store;
writing a detached copy does not. -/
def setThroughView (st : Store) (v : StoreView) (k : String) (r : StoredSelector) : Store :=
  match v with
  | .live => mapSet st k r
  | .copy _ => st

/-- One element record reported by the remote surface's enumeration, from the
`ElementData` interface of the source (the open `[key: string]` bag is
restricted to the named fields the formatter reads). -/
structure ElementData where
  tag : String
  text : Option String
  selector : String
  id : Option String
  classes : Option String
  type : Option String
  role : Option String
deriving DecidableEq, Repr

/-- JavaScript truthiness of an optional string (`if (el.text)` and friends):
`undefined` and the empty string are falsy. -/
def jsTruthy : Option String → Bool
  | none => false
  | some s => !(s = "")

/-- JavaScript `String.prototype.substring(0, n)`. -/
def jsSubstring (s : String) (n : Nat) : String := String.mk (s.data.take n)

/-- The `${el.tag || "element"}` fallback: an empty tag renders as the
literal `element`. -/
def jsTag (tag : String) : String := if tag = "" then "element" else tag

/-- The quoted-preview fragment the formatter appends for a truthy
`el.text`: the first 50 characters, with a trailing `...` exactly when the
text is longer than 50. -/
def textPreview (t : String) : String :=
  " - \"" ++ jsSubstring t 50 ++ (if 50 < t.length then "..." else "") ++ "\""

/-- The per-element body of the `forEach` in `formatElementText`:
numbered head, optional quoted preview, then either the detailed indented
attribute sub-lines (each present only when its attribute is truthy) or the
compact inline selector. -/
def formatOneElement (index : Nat) (el : ElementData) (includeDetails : Bool) : String :=
  let head := toString (index + 1) ++ ". **" ++ jsTag el.tag ++ "**"
  let head := if jsTruthy el.text then head ++ textPreview (el.text.getD "") else head
  let head :=
    if includeDetails then
      head ++ "\n   - CSS Selector: `" ++ el.selector ++ "`"
        ++ (if jsTruthy el.id then "\n   - ID: " ++ el.id.getD "" else "")
        ++ (if jsTruthy el.classes then "\n   - Classes: " ++ el.classes.getD "" else "")
        ++ (if jsTruthy el.type then "\n   - Type: " ++ el.type.getD "" else "")
        ++ (if jsTruthy el.role then "\n   - Role: " ++ el.role.getD "" else "")
    else
      head ++ " (`" ++ el.selector ++ "`)"
  head ++ "\n"

/-- `formatElementText` (source lines 108-138): the empty list renders the
fixed sentence, otherwise each element renders in order, numbered from 1. -/
def formatElementText (els : List ElementData) (includeDetails : Bool) : String :=
  if els.length = 0 then "No interactive elements found.\n"
  else String.join (els.enum.map (fun p => formatOneElement p.1 p.2 includeDetails))

/-- A failure of a remote interaction over the channel (channel unavailable,
remote-reported fault, or timeout — the source treats all alike by letting
the rejection propagate). -/
structure RemoteError where
  msg : String
deriving DecidableEq, Repr

/-- A content block of a tool response envelope. -/
inductive ContentBlock where
  | text (s : String)
  | image (data : String) (mimeType : String)
deriving DecidableEq, Repr

/-- The oracles a tool invocation interacts with: one entry per remote
interaction the handlers perform.  `screenshot`, `enumerate` and `click` are
the channel commands sent via `context.sendSocketMessage`; `ariaSnapshot` is
the external structural-capture collaborator (`captureAriaSnapshot`).
`enumerate` replies are taken array-shaped (a list of element records), the
shape every formatting branch of the source distinguishes only by length. -/
structure Context where
  screenshot : Except RemoteError String
  ariaSnapshot : Except RemoteError (List ContentBlock)
  enumerate : Bool → Except RemoteError (List ElementData)
  click : String → Except RemoteError Unit

/-- One violated field of a validation, as zod records it (path and
message). -/
structure Issue where
  path : String
  message : String
deriving DecidableEq, Repr

/-- How a tool invocation fails: argument validation (a single error carrying
the whole violation list) or a remote interaction failure. -/
inductive Failure where
  | validation (issues : List Issue)
  | remote (e : RemoteError)
deriving DecidableEq, Repr

/-- Validation of one required `z.string()` field: a missing/undefined value
or a non-string value is an issue. -/
def requiredString (o : RawObj) (name : String) : Except Issue String :=
  match jsGet o name with
  | .vstr s => .ok s
  | .undefined => .error ⟨name, "Required"⟩
  | _ => .error ⟨name, "Expected string"⟩

/-- Validation of one `z.string().optional()` field. -/
def optionalString (o : RawObj) (name : String) : Except Issue (Option String) :=
  match jsGet o name with
  | .vstr s => .ok (some s)
  | .undefined => .ok none
  | _ => .error ⟨name, "Expected string"⟩

/-- Validation of one `z.boolean().optional()` field. -/
def optionalBool (o : RawObj) (name : String) : Except Issue (Option Bool) :=
  match jsGet o name with
  | .vbool b => .ok (some b)
  | .undefined => .ok none
  | _ => .error ⟨name, "Expected boolean"⟩

/-- The issue list a field check contributes to an aggregate zod error. -/
def errList {α : Type} : Except Issue α → List Issue
  | .ok _ => []
  | .error i => [i]

/-- Arguments of `browser_teach_selector` after validation. -/
structure TeachArgs where
  actionDescription : String
  selector : String
  notes : Option String
deriving DecidableEq, Repr

/-- `TeachSelectorSchema.shape.arguments.parse`: every field is checked and
all issues are aggregated into one error, as zod object parsing does. -/
def parseTeachArgs (o : RawObj) : Except (List Issue) TeachArgs :=
  match requiredString o "actionDescription", requiredString o "selector",
        optionalString o "notes" with
  | .ok a, .ok s, .ok n => .ok ⟨a, s, n⟩
  | r1, r2, r3 => .error (errList r1 ++ errList r2 ++ errList r3)

/-- Arguments of `browser_enumerate_elements` after validation. -/
structure EnumerateArgs where
  includeHidden : Option Bool
deriving DecidableEq, Repr

/-- `EnumerateElementsSchema.shape.arguments.parse`. -/
def parseEnumerateArgs (o : RawObj) : Except (List Issue) EnumerateArgs :=
  match optionalBool o "includeHidden" with
  | .ok b => .ok ⟨b⟩
  | .error i => .error [i]

/-- Arguments of `browser_enhanced_snapshot` after validation. -/
structure EnhancedArgs where
  includeElements : Option Bool
deriving DecidableEq, Repr

/-- `EnhancedSnapshotSchema.shape.arguments.parse`. -/
def parseEnhancedArgs (o : RawObj) : Except (List Issue) EnhancedArgs :=
  match optionalBool o "includeElements" with
  | .ok b => .ok ⟨b⟩
  | .error i => .error [i]

/-- Arguments of `browser_click_by_selector` after validation. -/
structure ClickArgs where
  selector : String
  description : Option String
deriving DecidableEq, Repr

/-- `ClickBySelectorSchema.shape.arguments.parse`. -/
def parseClickArgs (o : RawObj) : Except (List Issue) ClickArgs :=
  match requiredString o "selector", optionalString o "description" with
  | .ok s, .ok d => .ok ⟨s, d⟩
  | r1, r2 => .error (errList r1 ++ errList r2)

/-- The text body produced by `enumerateElements.handle` for an array-shaped
reply: a non-empty list is formatted in detailed mode; an empty array (which
is a truthy JS object) renders the fallback sentence and the typeof note. -/
def enumerateText (els : List ElementData) : String :=
  "## Enumerated Interactive Elements\n\n" ++
  (if 0 < els.length then formatElementText els true
   else "No interactive elements found or enumeration not supported.\n" ++
     "Note: Received data of type object - extension may need to implement this handler.\n")

/-- `enumerateElements.handle`: validate, send `browser_enumerate_elements`
with `includeHidden ?? false`, format the reply. -/
def enumerateElementsHandle (ctx : Context) (raw : RawObj) :
    Except Failure (List ContentBlock) :=
  match parseEnumerateArgs raw with
  | .error is => .error (.validation is)
  | .ok args =>
    match ctx.enumerate (args.includeHidden.getD false) with
    | .error e => .error (.remote e)
    | .ok els => .ok [.text (enumerateText els)]

/-- `clickBySelector.handle`: validate, send the click command, then capture
the structural snapshot; the confirmation line carries the optional
description only when truthy. -/
def clickBySelectorHandle (ctx : Context) (raw : RawObj) :
    Except Failure (List ContentBlock) :=
  match parseClickArgs raw with
  | .error is => .error (.validation is)
  | .ok args =>
    match ctx.click args.selector with
    | .error e => .error (.remote e)
    | .ok _ =>
      match ctx.ariaSnapshot with
      | .error e => .error (.remote e)
      | .ok snap =>
        .ok (ContentBlock.text
          ("Clicked element with selector: " ++ args.selector ++
            (if jsTruthy args.description then " (" ++ args.description.getD "" ++ ")" else ""))
          :: snap)

/-- The store write performed by `teachSelector.handle`: `learnedSelectors.set`
keyed by the original `actionDescription` (preserved verbatim), recording the
selector, the optional notes, and the fresh timestamp. -/
def teachStore (now : JsDate) (st : Store) (args : TeachArgs) : Store :=
  mapSet st args.actionDescription ⟨args.selector, args.notes, now⟩

/-- `teachSelector.handle`: validate, write the store, and confirm, echoing
the selector and (when truthy) the notes.  `now` is the `new Date()` taken at
write time. -/
def teachSelectorHandle (now : JsDate) (st : Store) (raw : RawObj) :
    Except Failure (Store × List ContentBlock) :=
  match parseTeachArgs raw with
  | .error is => .error (.validation is)
  | .ok args =>
    .ok (teachStore now st args,
      [.text ("✓ Learned selector for \"" ++ args.actionDescription ++ "\": `"
        ++ args.selector ++ "`"
        ++ (if jsTruthy args.notes then "\n  Notes: " ++ args.notes.getD "" else ""))])

/-- The bullet block one store record contributes to the `getLearnedSelectors`
listing: description, selector, notes (only when truthy), and the ISO
rendering of the timestamp. -/
def bulletFor (k : String) (v : StoredSelector) : String :=
  "- **" ++ k ++ "**\n"
  ++ "  - Selector: `" ++ v.selector ++ "`\n"
  ++ (if jsTruthy v.notes then "  - Notes: " ++ v.notes.getD "" ++ "\n" else "")
  ++ "  - Taught: " ++ v.timestamp.toISOString ++ "\n"

/-- The `learnedSelectors.forEach` accumulation of `getLearnedSelectors.handle`:
each record's bullet, in insertion order. -/
def bullets : Store → String
  | [] => ""
  | (k, v) :: rest => bulletFor k v ++ bullets rest

/-- The text of `getLearnedSelectors.handle`: the header, then either the
empty-store sentence with the teach hint, or one bullet per record. -/
def getLearnedText (st : Store) : String :=
  "## Learned CSS Selectors\n\n" ++
  (if st.length = 0 then
    "No selectors have been taught yet.\n\n" ++
      "Use the `browser_teach_selector` tool to teach the model which selectors to use for specific actions."
   else bullets st)

/-- `getLearnedSelectors.handle` (it reads the store and ignores its
parameters). -/
def getLearnedSelectorsHandle (st : Store) : List ContentBlock :=
  [.text (getLearnedText st)]

/-- `enhancedSnapshot.handle`: validate, capture the screenshot and the
structural snapshot (either failure propagates), then, only when
`includeElements` is truthy, attempt the enumeration — a failure of that one
call is swallowed and the rest of the result is returned. -/
def enhancedSnapshotHandle (ctx : Context) (raw : RawObj) :
    Except Failure (List ContentBlock) :=
  match parseEnhancedArgs raw with
  | .error is => .error (.validation is)
  | .ok args =>
    match ctx.screenshot with
    | .error e => .error (.remote e)
    | .ok shot =>
      match ctx.ariaSnapshot with
      | .error e => .error (.remote e)
      | .ok snap =>
        let base := ContentBlock.image shot "image/png" :: snap
        if args.includeElements = some true then
          match ctx.enumerate false with
          | .error _ => .ok base
          | .ok els =>
            .ok (base ++ [.text ("\n## Interactive Elements\n\n" ++
              (if 0 < els.length then formatElementText els false
               else "No interactive elements found.\n"))])
        else .ok base

/-- The object the resource's `read` builds for one store record:
`{ selector, notes: value.notes, timestamp: value.timestamp.toISOString() }`
— the notes member is `undefined` when the record has none. -/
def resourceEntry (v : StoredSelector) : List (String × JsPrim) :=
  [("selector", .vstr v.selector),
   ("notes", match v.notes with | some n => .vstr n | none => .undefined),
   ("timestamp", .vstr v.timestamp.toISOString)]

/-- The `data` object of `createSelectorsResource.read`: one top-level member
per store record, keyed by description, in insertion order. -/
def resourceDoc (st : Store) : List (String × List (String × JsPrim)) :=
  st.map (fun p => (p.1, resourceEntry p.2))

/-- Lowercase hex digit, for JSON control-character escapes. -/
def hexDigit (n : Nat) : Char :=
  if n < 10 then Char.ofNat (48 + n) else Char.ofNat (87 + n)

/-- JSON escaping of one character, as `JSON.stringify` performs it. -/
def escapeChar (c : Char) : String :=
  if c = '"' then "\\\""
  else if c = '\\' then "\\\\"
  else if c = '\n' then "\\n"
  else if c = '\r' then "\\r"
  else if c = '\t' then "\\t"
  else if c = '\x08' then "\\b"
  else if c = '\x0c' then "\\f"
  else if c.toNat < 32 then
    "\\u00" ++ String.mk [hexDigit (c.toNat / 16), hexDigit (c.toNat % 16)]
  else String.mk [c]

/-- JSON string-body escaping. -/
def escapeJson (s : String) : String := String.join (s.data.map escapeChar)

/-- A JSON string literal. -/
def quoteJson (s : String) : String := "\"" ++ escapeJson s ++ "\""

/-- Join with a separator. -/
def joinSep (sep : String) : List String → String
  | [] => ""
  | [s] => s
  | s :: rest => s ++ sep ++ joinSep sep rest

/-- `JSON.stringify` rendering of one primitive member value; `none` for
`undefined`, whose members stringify omits. -/
def stringifyPrim : JsPrim → Option String
  | .undefined => none
  | .vnull => some "null"
  | .vbool b => some (if b then "true" else "false")
  | .vstr s => some (quoteJson s)

/-- The members of an object that `JSON.stringify` serializes: the
`undefined`-valued ones are dropped entirely. -/
def serializableMembers (fs : List (String × JsPrim)) : List (String × String) :=
  fs.filterMap (fun p => (stringifyPrim p.2).map (fun s => (p.1, s)))

/-- `JSON.stringify(entry, null, 2)` rendering of one nested entry object at
depth 1 (inner members indented four spaces). -/
def stringifyEntry (fs : List (String × JsPrim)) : String :=
  match serializableMembers fs with
  | [] => "\x7b\x7d"
  | ms => "\x7b\n" ++
      joinSep ",\n" (ms.map (fun p => "    " ++ quoteJson p.1 ++ ": " ++ p.2)) ++
      "\n  \x7d"

/-- `JSON.stringify(data, null, 2)` for the two-level document the resource
builds. -/
def stringifyDoc (doc : List (String × List (String × JsPrim))) : String :=
  match doc with
  | [] => "\x7b\x7d"
  | es => "\x7b\n" ++
      joinSep ",\n" (es.map (fun p => "  " ++ quoteJson p.1 ++ ": " ++ stringifyEntry p.2)) ++
      "\n\x7d"

/-- The serialized text `createSelectorsResource.read` returns for the store's
current contents. -/
def resourceReadText (st : Store) : String := stringifyDoc (resourceDoc st)

/-- One result row of a resource read. -/
structure ResourceResult where
  uri : String
  mimeType : String
  text : String
deriving DecidableEq, Repr

/-- `createSelectorsResource(...).read`: one JSON document at the fixed URI,
serializing the store's current contents. -/
def selectorsResourceRead (st : Store) : List ResourceResult :=
  [⟨"selectors://learned", "application/json", resourceReadText st⟩]

/-- Substring containment of rendered text. -/
def StrContains (hay needle : String) : Prop :=
  ∃ p q : String, hay = p ++ (needle ++ q)

/-! Helper lemmas about strings, the store, and the renderings. -/

theorem string_data_append (a b : String) : (a ++ b).data = a.data ++ b.data := by
  cases a; cases b; rfl

theorem strContains_append_right (a b n : String) (h : StrContains b n) :
    StrContains (a ++ b) n := by
  obtain ⟨p, q, hpq⟩ := h
  exact ⟨a ++ p, q, by rw [hpq, String.append_assoc]⟩

theorem strContains_self_append (n b : String) : StrContains (n ++ b) n :=
  ⟨"", b, by rw [String.empty_append]⟩

theorem mapGet_mapSet_self (st : Store) (k : String) (v : StoredSelector) :
    mapGet (mapSet st k v) k = some v := by
  induction st with
  | nil => simp [mapSet, mapGet]
  | cons hd tl ih =>
    obtain ⟨k', v'⟩ := hd
    by_cases h : k' = k
    · subst h; simp [mapSet, mapGet]
    · simp [mapSet, mapGet, h, ih]

theorem countKey_cons (k' : String) (v' : StoredSelector) (tl : Store) (k : String) :
    countKey ((k', v') :: tl) k = (if k' = k then 1 else 0) + countKey tl k := by
  by_cases hk : k' = k
  · simp [countKey, List.filter_cons, hk]
    omega
  · simp [countKey, List.filter_cons, hk]

theorem countKey_not_mem (st : Store) (k : String) (h : k ∉ storeKeys st) :
    countKey st k = 0 := by
  induction st with
  | nil => rfl
  | cons hd tl ih =>
    obtain ⟨k', v'⟩ := hd
    have h3 : k ∉ k' :: storeKeys tl := h
    rw [List.mem_cons] at h3
    push_neg at h3
    rw [countKey_cons, if_neg (fun hc => h3.1 hc.symm), ih h3.2]

theorem countKey_mapSet_self (st : Store) (k : String) (v : StoredSelector)
    (h : nodupKeys st) : countKey (mapSet st k v) k = 1 := by
  induction st with
  | nil => simp [mapSet, countKey, List.filter_cons]
  | cons hd tl ih =>
    obtain ⟨k', v'⟩ := hd
    have h2 : (k' :: storeKeys tl).Nodup := h
    obtain ⟨hnotin, hnd⟩ := List.nodup_cons.mp h2
    by_cases hk : k' = k
    · subst hk
      rw [show mapSet ((k', v') :: tl) k' v = (k', v) :: tl by simp [mapSet]]
      rw [countKey_cons, if_pos rfl, countKey_not_mem tl k' hnotin]
    · rw [show mapSet ((k', v') :: tl) k v = (k', v') :: mapSet tl k v by
        simp [mapSet, hk]]
      rw [countKey_cons, if_neg hk, ih hnd]

theorem storeKeys_mapSet_mem (st : Store) (k : String) (v : StoredSelector)
    (h : k ∈ storeKeys st) : storeKeys (mapSet st k v) = storeKeys st := by
  induction st with
  | nil => cases h
  | cons hd tl ih =>
    obtain ⟨k', v'⟩ := hd
    by_cases hk : k' = k
    · subst hk
      rw [show mapSet ((k', v') :: tl) k' v = (k', v) :: tl by simp [mapSet]]
      rfl
    · have hmem : k ∈ storeKeys tl := by
        have h3 : k ∈ k' :: storeKeys tl := h
        rcases List.mem_cons.mp h3 with hc | hc
        · exact absurd hc.symm hk
        · exact hc
      rw [show mapSet ((k', v') :: tl) k v = (k', v') :: mapSet tl k v by
        simp [mapSet, hk]]
      show k' :: storeKeys (mapSet tl k v) = k' :: storeKeys tl
      rw [ih hmem]

theorem storeKeys_mapSet_not_mem (st : Store) (k : String) (v : StoredSelector)
    (h : k ∉ storeKeys st) : storeKeys (mapSet st k v) = storeKeys st ++ [k] := by
  induction st with
  | nil => rfl
  | cons hd tl ih =>
    obtain ⟨k', v'⟩ := hd
    have h3 : k ∉ k' :: storeKeys tl := h
    rw [List.mem_cons] at h3
    push_neg at h3
    have hne : ¬ k' = k := fun hc => h3.1 hc.symm
    rw [show mapSet ((k', v') :: tl) k v = (k', v') :: mapSet tl k v by
      simp [mapSet, hne]]
    show k' :: storeKeys (mapSet tl k v) = (k' :: storeKeys tl) ++ [k]
    rw [ih h3.2]
    rfl

theorem nodupKeys_mapSet (st : Store) (k : String) (v : StoredSelector)
    (h : nodupKeys st) : nodupKeys (mapSet st k v) := by
  by_cases hm : k ∈ storeKeys st
  · show (storeKeys (mapSet st k v)).Nodup
    rw [storeKeys_mapSet_mem st k v hm]
    exact h
  · show (storeKeys (mapSet st k v)).Nodup
    rw [storeKeys_mapSet_not_mem st k v hm]
    refine List.Nodup.append h (List.nodup_singleton k) ?_
    intro a ha hb
    rw [List.mem_singleton] at hb
    exact hm (hb ▸ ha)

theorem mem_mapSet_self (st : Store) (k : String) (v : StoredSelector) :
    (k, v) ∈ mapSet st k v := by
  induction st with
  | nil => simp [mapSet]
  | cons hd tl ih =>
    obtain ⟨k', v'⟩ := hd
    by_cases hk : k' = k
    · subst hk; simp [mapSet]
    · simp only [mapSet, hk, ite_false, List.mem_cons]
      exact Or.inr ih

theorem length_mapSet_of_get_none (st : Store) (k : String) (v : StoredSelector)
    (h : mapGet st k = none) : (mapSet st k v).length = st.length + 1 := by
  induction st with
  | nil => rfl
  | cons hd tl ih =>
    obtain ⟨k', v'⟩ := hd
    by_cases hk : k' = k
    · simp [mapGet, hk] at h
    · simp only [mapSet, hk, ite_false, List.length_cons]
      rw [ih (by simpa [mapGet, hk] using h)]

theorem bullets_contains (st : Store) (k : String) (v : StoredSelector)
    (h : (k, v) ∈ st) : StrContains (bullets st) (bulletFor k v) := by
  induction st with
  | nil => cases h
  | cons hd tl ih =>
    obtain ⟨k', v'⟩ := hd
    rcases List.mem_cons.mp h with heq | hmem
    · rw [Prod.mk.injEq] at heq
      obtain ⟨h1, h2⟩ := heq
      subst h1; subst h2
      exact strContains_self_append _ _
    · exact strContains_append_right _ _ _ (ih hmem)

theorem getLearnedText_contains_of_mem (st : Store) (k : String) (v : StoredSelector)
    (h : (k, v) ∈ st) : StrContains (getLearnedText st) (bulletFor k v) := by
  have hne : st ≠ [] := List.ne_nil_of_mem h
  have hlen : ¬ st.length = 0 := by simpa [List.length_eq_zero] using hne
  have hrw : getLearnedText st = "## Learned CSS Selectors\n\n" ++ bullets st := by
    simp [getLearnedText, hlen]
  rw [hrw]
  exact strContains_append_right _ _ _ (bullets_contains st k v h)

/-! Claim theorems. -/

/-- C1 counterexample: the view returned by the store's getter is the live
map — writing through it on the empty store changes the store's contents, so
the claim that mutating the returned view leaves the store unchanged is
false. -/
theorem getter_view_mutation_counterexample :
    setThroughView [] getLearnedSelectorsMap "x"
      ⟨"#a", none, ⟨"2024-01-01T00:00:00.000Z"⟩⟩ ≠ ([] : Store) := by
  decide

/-- C1 (amended): `getLearnedSelectorsMap` returns the live map, not a
snapshot: a caller inserting a fresh key through the returned view changes
the store's contents. -/
theorem getter_returns_live_reference (st : Store) (k : String) (r : StoredSelector)
    (h : mapGet st k = none) :
    setThroughView st getLearnedSelectorsMap k r ≠ st := by
  intro heq
  have hl : (mapSet st k r).length = st.length + 1 := length_mapSet_of_get_none st k r h
  have heq' : mapSet st k r = st := heq
  rw [heq'] at hl
  omega

/-- C1 witness. -/
theorem getter_returns_live_reference_witness :
    mapGet [] "x" = none ∧
    setThroughView [] getLearnedSelectorsMap "x"
      ⟨"#b", none, ⟨"2024-01-02T00:00:00.000Z"⟩⟩ ≠ ([] : Store) :=
  ⟨rfl, getter_returns_live_reference [] "x" ⟨"#b", none, ⟨"2024-01-02T00:00:00.000Z"⟩⟩ rfl⟩

/-- C2: teaching `x ↦ a` and then `x ↦ b` leaves exactly one store entry
keyed by the verbatim description `x`, and its selector is `b` (with the
second call's notes and timestamp): last write wins, overwriting wholesale. -/
theorem teach_last_write_wins (st : Store) (h : nodupKeys st)
    (x a b : String) (n1 n2 : Option String) (d1 d2 : JsDate) :
    countKey (teachStore d2 (teachStore d1 st ⟨x, a, n1⟩) ⟨x, b, n2⟩) x = 1 ∧
    mapGet (teachStore d2 (teachStore d1 st ⟨x, a, n1⟩) ⟨x, b, n2⟩) x
      = some ⟨b, n2, d2⟩ :=
  ⟨countKey_mapSet_self _ x _ (nodupKeys_mapSet st x _ h),
   mapGet_mapSet_self _ x _⟩

/-- C2 witness. -/
theorem teach_last_write_wins_witness :
    nodupKeys ([] : Store) ∧
    countKey (teachStore ⟨"2024-01-02T00:00:00.000Z"⟩
        (teachStore ⟨"2024-01-01T00:00:00.000Z"⟩ [] ⟨"x", "a", none⟩)
        ⟨"x", "b", none⟩) "x" = 1 ∧
    mapGet (teachStore ⟨"2024-01-02T00:00:00.000Z"⟩
        (teachStore ⟨"2024-01-01T00:00:00.000Z"⟩ [] ⟨"x", "a", none⟩)
        ⟨"x", "b", none⟩) "x"
      = some ⟨"b", none, ⟨"2024-01-02T00:00:00.000Z"⟩⟩ :=
  ⟨List.nodup_nil,
   teach_last_write_wins [] List.nodup_nil "x" "a" "b" none none
     ⟨"2024-01-01T00:00:00.000Z"⟩ ⟨"2024-01-02T00:00:00.000Z"⟩⟩

/-- C4: a teach invocation missing both required fields fails with a single
validation error whose issue list names both `actionDescription` and
`selector` — validation checks every field before failing. -/
theorem validation_reports_all_missing_fields (raw : RawObj)
    (h1 : jsGet raw "actionDescription" = .undefined)
    (h2 : jsGet raw "selector" = .undefined) :
    ∃ issues, parseTeachArgs raw = .error issues ∧
      "actionDescription" ∈ issues.map Issue.path ∧
      "selector" ∈ issues.map Issue.path ∧
      2 ≤ issues.length := by
  have hr1 : requiredString raw "actionDescription"
      = .error ⟨"actionDescription", "Required"⟩ := by
    simp [requiredString, h1]
  have hr2 : requiredString raw "selector" = .error ⟨"selector", "Required"⟩ := by
    simp [requiredString, h2]
  cases h3 : optionalString raw "notes" with
  | ok n =>
    refine ⟨[⟨"actionDescription", "Required"⟩, ⟨"selector", "Required"⟩], ?_, ?_, ?_, ?_⟩
    · simp [parseTeachArgs, hr1, hr2, h3, errList]
    · simp
    · simp
    · simp
  | error i =>
    refine ⟨[⟨"actionDescription", "Required"⟩, ⟨"selector", "Required"⟩, i], ?_, ?_, ?_, ?_⟩
    · simp [parseTeachArgs, hr1, hr2, h3, errList]
    · simp
    · simp
    · simp

/-- C4 witness. -/
theorem validation_reports_all_missing_fields_witness :
    jsGet ([] : RawObj) "actionDescription" = .undefined ∧
    jsGet ([] : RawObj) "selector" = .undefined ∧
    ∃ issues, parseTeachArgs [] = .error issues ∧
      "actionDescription" ∈ issues.map Issue.path ∧
      "selector" ∈ issues.map Issue.path ∧
      2 ≤ issues.length :=
  ⟨rfl, rfl, validation_reports_all_missing_fields [] rfl rfl⟩

/-- C5: the entity formatter's preview of a 50-character `displayText`
carries no ellipsis marker; a text of 51 or more characters renders exactly
its first 50 characters followed by `...`; the marker is appended only when
truncation occurred (any text of at most 50 characters renders verbatim);
and for a one-element list in compact mode the formatter's output is exactly
the per-element rendering, which embeds this preview. -/
theorem truncation_boundary (t tag sel : String) :
    (t.length = 50 → textPreview t = " - \"" ++ t ++ "\"") ∧
    (51 ≤ t.length →
      textPreview t = " - \"" ++ jsSubstring t 50 ++ "..." ++ "\"") ∧
    (t.length ≤ 50 → textPreview t = " - \"" ++ t ++ "\"") ∧
    (t ≠ "" →
      formatElementText [⟨tag, some t, sel, none, none, none, none⟩] false
        = formatOneElement 0 ⟨tag, some t, sel, none, none, none, none⟩ false ∧
      StrContains (formatOneElement 0 ⟨tag, some t, sel, none, none, none, none⟩ false)
        (textPreview t)) := by
  have hsub : t.length ≤ 50 → jsSubstring t 50 = t := by
    intro h
    show String.mk (t.data.take 50) = t
    rw [List.take_of_length_le h]
  have hle : ∀ h : t.length ≤ 50, textPreview t = " - \"" ++ t ++ "\"" := by
    intro h
    rw [textPreview, hsub h, if_neg (by omega)]
    rw [String.append_empty]
  refine ⟨fun h => hle (by omega), ?_, hle, ?_⟩
  · intro h
    rw [textPreview, if_pos (by omega)]
  · intro h
    constructor
    · have : formatElementText [⟨tag, some t, sel, none, none, none, none⟩] false
          = "" ++ formatOneElement 0 ⟨tag, some t, sel, none, none, none, none⟩ false := rfl
      rw [this, String.empty_append]
    · refine ⟨toString (0 + 1) ++ ". **" ++ jsTag tag ++ "**",
        " (`" ++ sel ++ "`)" ++ "\n", ?_⟩
      have htruthy : jsTruthy (some t) = true := by simp [jsTruthy, h]
      simp only [formatOneElement, htruthy, if_true, if_false, Bool.false_eq_true,
        Option.getD_some, String.append_assoc]

/-- C5 witness. -/
theorem truncation_boundary_witness :
    (("aaaaaaaaaaaaaaaaaaaaaaaaaaaaaaaaaaaaaaaaaaaaaaaaaa" : String).length = 50 ∧
      textPreview "aaaaaaaaaaaaaaaaaaaaaaaaaaaaaaaaaaaaaaaaaaaaaaaaaa"
        = " - \"" ++ "aaaaaaaaaaaaaaaaaaaaaaaaaaaaaaaaaaaaaaaaaaaaaaaaaa" ++ "\"") ∧
    (51 ≤ ("aaaaaaaaaaaaaaaaaaaaaaaaaaaaaaaaaaaaaaaaaaaaaaaaaab" : String).length ∧
      textPreview "aaaaaaaaaaaaaaaaaaaaaaaaaaaaaaaaaaaaaaaaaaaaaaaaaab"
        = " - \"" ++ jsSubstring "aaaaaaaaaaaaaaaaaaaaaaaaaaaaaaaaaaaaaaaaaaaaaaaaaab" 50
          ++ "..." ++ "\"") ∧
    (("abc" : String).length ≤ 50 ∧ textPreview "abc" = " - \"" ++ "abc" ++ "\"") ∧
    (("Login" : String) ≠ "" ∧
      formatElementText [⟨"button", some "Login", "#login-btn", none, none, none, none⟩] false
        = formatOneElement 0 ⟨"button", some "Login", "#login-btn", none, none, none, none⟩ false) :=
  ⟨⟨by decide, (truncation_boundary "aaaaaaaaaaaaaaaaaaaaaaaaaaaaaaaaaaaaaaaaaaaaaaaaaa" "b" "s").1 (by decide)⟩,
   ⟨by decide, (truncation_boundary "aaaaaaaaaaaaaaaaaaaaaaaaaaaaaaaaaaaaaaaaaaaaaaaaaab" "b" "s").2.1 (by decide)⟩,
   ⟨by decide, (truncation_boundary "abc" "b" "s").2.2.1 (by decide)⟩,
   ⟨by decide, ((truncation_boundary "Login" "button" "#login-btn").2.2.2 (by decide)).1⟩⟩

set_option maxRecDepth 8192 in
/-- C6: when the remote enumeration reply is the empty entity list, the
enumerate operation succeeds with a text body that contains the fixed
no-elements sentence and is not empty. -/
theorem empty_enumeration_nonempty_output (ctx : Context) (raw : RawObj)
    (a : EnumerateArgs)
    (h1 : parseEnumerateArgs raw = .ok a)
    (h2 : ctx.enumerate (a.includeHidden.getD false) = .ok []) :
    enumerateElementsHandle ctx raw = .ok [ContentBlock.text (enumerateText [])] ∧
    StrContains (enumerateText []) "No interactive elements found" ∧
    enumerateText [] ≠ "" := by
  refine ⟨?_, ⟨"## Enumerated Interactive Elements\n\n",
    " or enumeration not supported.\nNote: Received data of type object - extension may need to implement this handler.\n",
    by decide⟩, by decide⟩
  simp [enumerateElementsHandle, h1, h2]

/-- C6 witness. -/
theorem empty_enumeration_nonempty_output_witness :
    parseEnumerateArgs ([] : RawObj) = .ok ⟨none⟩ ∧
    (Context.mk (.ok "") (.ok []) (fun _ => .ok []) (fun _ => .ok ())).enumerate
      ((none : Option Bool).getD false) = .ok [] ∧
    enumerateElementsHandle
      (Context.mk (.ok "") (.ok []) (fun _ => .ok []) (fun _ => .ok ())) []
      = .ok [ContentBlock.text (enumerateText [])] :=
  ⟨rfl, rfl,
   (empty_enumeration_nonempty_output
     (Context.mk (.ok "") (.ok []) (fun _ => .ok []) (fun _ => .ok ()))
     [] ⟨none⟩ rfl rfl).1⟩

/-- C7: with an empty store the list-learned operation's text contains the
fixed nothing-taught sentence and the hint naming the teach tool; with a
non-empty store the text contains, for every stored record, its full bullet
block — description, selector, notes only when present, and the ISO-8601
rendering of the timestamp. -/
theorem list_learned_rendering (st : Store) :
    (st.length = 0 →
      StrContains (getLearnedText st) "No selectors have been taught yet" ∧
      StrContains (getLearnedText st) "browser_teach_selector") ∧
    (∀ k v, (k, v) ∈ st → StrContains (getLearnedText st) (bulletFor k v)) := by
  constructor
  · intro h
    have hst : st = [] := List.length_eq_zero.mp h
    subst hst
    exact ⟨⟨"## Learned CSS Selectors\n\n",
        ".\n\nUse the `browser_teach_selector` tool to teach the model which selectors to use for specific actions.",
        by decide⟩,
      ⟨"## Learned CSS Selectors\n\nNo selectors have been taught yet.\n\nUse the `",
        "` tool to teach the model which selectors to use for specific actions.",
        by decide⟩⟩
  · intro k v hmem
    exact getLearnedText_contains_of_mem st k v hmem

/-- C7 witness. -/
theorem list_learned_rendering_witness :
    (([] : Store).length = 0 ∧
      StrContains (getLearnedText []) "No selectors have been taught yet") ∧
    (("login button", (⟨"#a", some "n1", ⟨"2025-11-24T02:30:00.000Z"⟩⟩ : StoredSelector))
        ∈ ([("login button", ⟨"#a", some "n1", ⟨"2025-11-24T02:30:00.000Z"⟩⟩)] : Store) ∧
      StrContains
        (getLearnedText [("login button", ⟨"#a", some "n1", ⟨"2025-11-24T02:30:00.000Z"⟩⟩)])
        (bulletFor "login button" ⟨"#a", some "n1", ⟨"2025-11-24T02:30:00.000Z"⟩⟩)) :=
  ⟨⟨rfl, ((list_learned_rendering []).1 rfl).1⟩,
   ⟨List.mem_singleton.mpr rfl,
    (list_learned_rendering [("login button", ⟨"#a", some "n1", ⟨"2025-11-24T02:30:00.000Z"⟩⟩)]).2
      "login button" ⟨"#a", some "n1", ⟨"2025-11-24T02:30:00.000Z"⟩⟩
      (List.mem_singleton.mpr rfl)⟩⟩

/-- C3: when enhanced-capture runs with `includeElements = true` and the
enumerate channel call fails, the operation still succeeds, returning exactly
the visual block and the structural-capture blocks (the elements block is
omitted); every other remote-call failure — enumerate's channel call, the
click call, the structural capture after a click, and enhanced-capture's own
screenshot or structural capture — is surfaced as the operation's error. -/
theorem remote_failure_policy (ctx : Context) (raw : RawObj) (shot : String)
    (snap : List ContentBlock) (e : RemoteError) :
    (parseEnhancedArgs raw = .ok ⟨some true⟩ → ctx.screenshot = .ok shot →
      ctx.ariaSnapshot = .ok snap → ctx.enumerate false = .error e →
      enhancedSnapshotHandle ctx raw = .ok (ContentBlock.image shot "image/png" :: snap)) ∧
    (∀ a, parseEnumerateArgs raw = .ok a →
      ctx.enumerate (a.includeHidden.getD false) = .error e →
      enumerateElementsHandle ctx raw = .error (.remote e)) ∧
    (∀ a, parseClickArgs raw = .ok a → ctx.click a.selector = .error e →
      clickBySelectorHandle ctx raw = .error (.remote e)) ∧
    (∀ a, parseClickArgs raw = .ok a → ctx.click a.selector = .ok () →
      ctx.ariaSnapshot = .error e →
      clickBySelectorHandle ctx raw = .error (.remote e)) ∧
    (∀ a, parseEnhancedArgs raw = .ok a → ctx.screenshot = .error e →
      enhancedSnapshotHandle ctx raw = .error (.remote e)) ∧
    (∀ a, parseEnhancedArgs raw = .ok a → ctx.screenshot = .ok shot →
      ctx.ariaSnapshot = .error e →
      enhancedSnapshotHandle ctx raw = .error (.remote e)) := by
  refine ⟨?_, ?_, ?_, ?_, ?_, ?_⟩
  · intro h1 h2 h3 h4
    simp [enhancedSnapshotHandle, h1, h2, h3, h4]
  · intro a h1 h2
    simp [enumerateElementsHandle, h1, h2]
  · intro a h1 h2
    simp [clickBySelectorHandle, h1, h2]
  · intro a h1 h2 h3
    simp [clickBySelectorHandle, h1, h2, h3]
  · intro a h1 h2
    simp [enhancedSnapshotHandle, h1, h2]
  · intro a h1 h2 h3
    simp [enhancedSnapshotHandle, h1, h2, h3]

/-- C3 witness. -/
theorem remote_failure_policy_witness :
    enhancedSnapshotHandle
      (Context.mk (.ok "IMG") (.ok [ContentBlock.text "SNAP"])
        (fun _ => .error ⟨"boom"⟩) (fun _ => .ok ()))
      [("includeElements", JsPrim.vbool true)]
      = .ok [ContentBlock.image "IMG" "image/png", ContentBlock.text "SNAP"] ∧
    enumerateElementsHandle
      (Context.mk (.ok "IMG") (.ok [ContentBlock.text "SNAP"])
        (fun _ => .error ⟨"boom"⟩) (fun _ => .ok ())) []
      = .error (.remote ⟨"boom"⟩) ∧
    clickBySelectorHandle
      (Context.mk (.ok "IMG") (.ok []) (fun _ => .ok []) (fun _ => .error ⟨"boom"⟩))
      [("selector", JsPrim.vstr "#b")]
      = .error (.remote ⟨"boom"⟩) ∧
    clickBySelectorHandle
      (Context.mk (.ok "IMG") (.error ⟨"boom"⟩) (fun _ => .ok []) (fun _ => .ok ()))
      [("selector", JsPrim.vstr "#b")]
      = .error (.remote ⟨"boom"⟩) ∧
    enhancedSnapshotHandle
      (Context.mk (.error ⟨"boom"⟩) (.ok []) (fun _ => .ok []) (fun _ => .ok ()))
      [("includeElements", JsPrim.vbool true)]
      = .error (.remote ⟨"boom"⟩) ∧
    enhancedSnapshotHandle
      (Context.mk (.ok "IMG") (.error ⟨"boom"⟩) (fun _ => .ok []) (fun _ => .ok ()))
      [("includeElements", JsPrim.vbool true)]
      = .error (.remote ⟨"boom"⟩) :=
  ⟨(remote_failure_policy
      (Context.mk (.ok "IMG") (.ok [ContentBlock.text "SNAP"])
        (fun _ => .error ⟨"boom"⟩) (fun _ => .ok ()))
      [("includeElements", JsPrim.vbool true)] "IMG" [ContentBlock.text "SNAP"]
      ⟨"boom"⟩).1 rfl rfl rfl rfl,
   (remote_failure_policy
      (Context.mk (.ok "IMG") (.ok [ContentBlock.text "SNAP"])
        (fun _ => .error ⟨"boom"⟩) (fun _ => .ok ())) [] "IMG"
      [ContentBlock.text "SNAP"] ⟨"boom"⟩).2.1 ⟨none⟩ rfl rfl,
   (remote_failure_policy
      (Context.mk (.ok "IMG") (.ok []) (fun _ => .ok []) (fun _ => .error ⟨"boom"⟩))
      [("selector", JsPrim.vstr "#b")] "IMG" [] ⟨"boom"⟩).2.2.1 ⟨"#b", none⟩ rfl rfl,
   (remote_failure_policy
      (Context.mk (.ok "IMG") (.error ⟨"boom"⟩) (fun _ => .ok []) (fun _ => .ok ()))
      [("selector", JsPrim.vstr "#b")] "IMG" [] ⟨"boom"⟩).2.2.2.1 ⟨"#b", none⟩ rfl rfl rfl,
   (remote_failure_policy
      (Context.mk (.error ⟨"boom"⟩) (.ok []) (fun _ => .ok []) (fun _ => .ok ()))
      [("includeElements", JsPrim.vbool true)] "IMG" [] ⟨"boom"⟩).2.2.2.2.1
      ⟨some true⟩ rfl rfl,
   (remote_failure_policy
      (Context.mk (.ok "IMG") (.error ⟨"boom"⟩) (fun _ => .ok []) (fun _ => .ok ()))
      [("includeElements", JsPrim.vbool true)] "IMG" [] ⟨"boom"⟩).2.2.2.2.2
      ⟨some true⟩ rfl rfl rfl⟩

/-- The keys of the resource document are exactly the store's keys, in
order. -/
theorem resourceDoc_keys (st : Store) :
    (resourceDoc st).map Prod.fst = storeKeys st := by
  induction st with
  | nil => rfl
  | cons hd tl ih =>
    show hd.1 :: (resourceDoc tl).map Prod.fst = hd.1 :: storeKeys tl
    rw [ih]

/-- C8: after a teach writes `description ↦ (target, notes)`, the
list-learned text contains that record's full bullet (selector, notes when
present, ISO timestamp), and the resource document — a single-level object
keyed by description — holds for that key an entry whose members carry the
same selector, the same optional notes, and the ISO timestamp string. -/
theorem teach_resource_listing_consistency (st : Store) (d t : String)
    (n : Option String) (now : JsDate) :
    StrContains (getLearnedText (teachStore now st ⟨d, t, n⟩))
      (bulletFor d ⟨t, n, now⟩) ∧
    (d, resourceEntry ⟨t, n, now⟩) ∈ resourceDoc (teachStore now st ⟨d, t, n⟩) ∧
    ("selector", JsPrim.vstr t) ∈ resourceEntry ⟨t, n, now⟩ ∧
    ("notes", match n with | some s => JsPrim.vstr s | none => JsPrim.undefined)
      ∈ resourceEntry ⟨t, n, now⟩ ∧
    ("timestamp", JsPrim.vstr now.toISOString) ∈ resourceEntry ⟨t, n, now⟩ ∧
    (resourceDoc (teachStore now st ⟨d, t, n⟩)).map Prod.fst
      = storeKeys (teachStore now st ⟨d, t, n⟩) := by
  refine ⟨?_, ?_, ?_, ?_, ?_, resourceDoc_keys _⟩
  · exact getLearnedText_contains_of_mem _ d ⟨t, n, now⟩ (mem_mapSet_self st d _)
  · exact List.mem_map_of_mem _ (mem_mapSet_self st d _)
  · simp [resourceEntry]
  · simp [resourceEntry]
  · simp [resourceEntry]

/-- C9 counterexample: validating an argument object that leaves the optional
boolean unspecified yields `undefined` (`none`), not the declared default
`false` — for both enumerate's `includeHidden` and enhanced-capture's
`includeElements`. -/
theorem optional_flag_validation_counterexample :
    parseEnumerateArgs [] = .ok ⟨none⟩ ∧
    ¬ parseEnumerateArgs [] = .ok ⟨some false⟩ ∧
    parseEnhancedArgs [] = .ok ⟨none⟩ ∧
    ¬ parseEnhancedArgs [] = .ok ⟨some false⟩ := by
  refine ⟨rfl, ?_, rfl, ?_⟩
  · intro hc
    rw [show parseEnumerateArgs [] = .ok ⟨none⟩ from rfl] at hc
    simp at hc
  · intro hc
    rw [show parseEnhancedArgs [] = .ok ⟨none⟩ from rfl] at hc
    simp at hc

/-- C9 (amended): validation leaves an unspecified optional boolean as
`undefined` rather than the declared default `false`; the default is applied
at the point of use — enumerate sends `includeHidden = false` on the channel
(`?? false`), and enhanced-capture treats the undefined flag as falsy,
performing no enumerate call (its result does not depend on the enumerate
oracle and carries no elements block). -/
theorem optional_flag_default_applied_at_use (ctx : Context) (raw : RawObj)
    (h1 : parseEnumerateArgs raw = .ok ⟨none⟩)
    (h2 : parseEnhancedArgs raw = .ok ⟨none⟩) :
    ¬ parseEnumerateArgs raw = .ok ⟨some false⟩ ∧
    (enumerateElementsHandle ctx raw =
      match ctx.enumerate false with
      | .error e => .error (.remote e)
      | .ok els => .ok [ContentBlock.text (enumerateText els)]) ∧
    (enhancedSnapshotHandle ctx raw =
      match ctx.screenshot with
      | .error e => .error (.remote e)
      | .ok shot =>
        match ctx.ariaSnapshot with
        | .error e => .error (.remote e)
        | .ok snap => .ok (ContentBlock.image shot "image/png" :: snap)) := by
  refine ⟨?_, ?_, ?_⟩
  · intro hc
    rw [h1] at hc
    simp at hc
  · simp only [enumerateElementsHandle, h1, Option.getD_none]
  · cases hs : ctx.screenshot with
    | error e => simp [enhancedSnapshotHandle, h2, hs]
    | ok shot =>
      cases ha : ctx.ariaSnapshot with
      | error e => simp [enhancedSnapshotHandle, h2, hs, ha]
      | ok snap => simp [enhancedSnapshotHandle, h2, hs, ha]

/-- C9 witness. -/
theorem optional_flag_default_applied_at_use_witness :
    parseEnumerateArgs ([] : RawObj) = .ok ⟨none⟩ ∧
    parseEnhancedArgs ([] : RawObj) = .ok ⟨none⟩ ∧
    (enumerateElementsHandle
        (Context.mk (.ok "") (.ok []) (fun _ => .ok []) (fun _ => .ok ())) [] =
      match (Context.mk (.ok "") (.ok []) (fun _ => .ok [])
          (fun _ => .ok ()) : Context).enumerate false with
      | .error e => .error (.remote e)
      | .ok els => .ok [ContentBlock.text (enumerateText els)]) :=
  ⟨rfl, rfl,
   (optional_flag_default_applied_at_use
     (Context.mk (.ok "") (.ok []) (fun _ => .ok []) (fun _ => .ok ()))
     [] rfl rfl).2.1⟩

/-- C10: in the resource document, a record without notes serializes to an
object whose member keys are exactly `selector` and `timestamp` — the notes
key is absent (never present with a null value), while the selector and
timestamp keys are present for every record. -/
theorem resource_notes_key_omission (st : Store) (k : String) (v : StoredSelector)
    (h : (k, v) ∈ st) :
    (k, resourceEntry v) ∈ resourceDoc st ∧
    "selector" ∈ (serializableMembers (resourceEntry v)).map Prod.fst ∧
    "timestamp" ∈ (serializableMembers (resourceEntry v)).map Prod.fst ∧
    (v.notes = none →
      (serializableMembers (resourceEntry v)).map Prod.fst = ["selector", "timestamp"]) := by
  obtain ⟨sel, nts, ts⟩ := v
  refine ⟨List.mem_map_of_mem _ h, ?_, ?_, ?_⟩
  · cases nts <;> simp [serializableMembers, resourceEntry, stringifyPrim]
  · cases nts <;> simp [serializableMembers, resourceEntry, stringifyPrim]
  · intro hn
    have hn2 : nts = none := hn
    subst hn2
    simp [serializableMembers, resourceEntry, stringifyPrim]

/-- C10 witness. -/
theorem resource_notes_key_omission_witness :
    (("x", (⟨"#a", none, ⟨"2024-01-01T00:00:00.000Z"⟩⟩ : StoredSelector))
        ∈ ([("x", ⟨"#a", none, ⟨"2024-01-01T00:00:00.000Z"⟩⟩)] : Store)) ∧
    (serializableMembers
        (resourceEntry ⟨"#a", none, ⟨"2024-01-01T00:00:00.000Z"⟩⟩)).map Prod.fst
      = ["selector", "timestamp"] :=
  ⟨List.mem_singleton.mpr rfl,
   (resource_notes_key_omission [("x", ⟨"#a", none, ⟨"2024-01-01T00:00:00.000Z"⟩⟩)]
     "x" ⟨"#a", none, ⟨"2024-01-01T00:00:00.000Z"⟩⟩
     (List.mem_singleton.mpr rfl)).2.2.2 rfl⟩
